import Mathlib

/-!
Verification development for the myyoutube-processor transcript pipeline.

Shallow embedding of the core of the repository:
  * `_format_transcript` and `extract_transcript`
    (src/myyoutubeprocessor/utils/youtube_utils.py),
  * `_get_language_variants` (same file),
  * `YouTubeAudioDownloader.download_audio` and `transcribe_youtube_audio`
    (src/myyoutubeprocessor/utils/audio_transcription.py),
  * the text-trimming step of `get_mistral_summary_with_requests`
    (src/myyoutubeprocessor/utils/ai/mistral/mistral_utils.py) and of
    `get_mistral_summary` (src/myyoutubeprocessor/utils/ai/ollama_utils.py),
  * `get_ai_summary` (src/myyoutubeprocessor/utils/ai/ai_service.py).

Python strings are embedded as `List Char`; Python truthiness of strings,
lists and `None` is modelled explicitly.  External services (the captions
API, yt-dlp, the speech engines, the AI backends) are modelled as oracles
packed into `World` / `AIEnv` records, so that the control flow of the
embedded functions is exactly the control flow of the source.
-/

namespace YTP

/-- Conversion from a Lean string literal to the `List Char` representation
used for embedded Python strings. -/
def pys (x : String) : List Char := x.data

/-- Characters stripped by Python `str.strip()` with no argument (the ASCII
whitespace characters that can occur in our worlds). -/
def pySpace (c : Char) : Bool :=
  c = ' ' || c = '\t' || c = '\n' || c = '\r' || c = '\x0b' || c = '\x0c'

/-- Embedding of Python `s.strip()`: drop whitespace from both ends. -/
def pyStrip (l : List Char) : List Char :=
  ((l.dropWhile pySpace).reverse.dropWhile pySpace).reverse

/-- Embedding of Python `" ".join(xs)`. -/
def joinSp : List (List Char) → List Char
  | [] => []
  | [t] => t
  | t :: rest => t ++ ' ' :: joinSp rest

/-- Embedding of Python `lang.startswith('en')`. -/
def startsWithEn (l : List Char) : Bool := (pys "en").isPrefixOf l

/-- Embedding of Python `lang.split('-')[0]` (the base ISO code). -/
def baseOf (l : List Char) : List Char := l.takeWhile (fun c => c ≠ '-')

/-- Number of (possibly overlapping) occurrences of the pattern `p`
as a contiguous substring of `w` (for nonempty patterns). -/
def countOcc (p : List Char) : List Char → Nat
  | [] => 0
  | c :: w => (if p.isPrefixOf (c :: w) then 1 else 0) + countOcc p w

/-!  Model of `_format_transcript` (youtube_utils.py lines 474-564).

A raw caption payload is one of the shapes the normalizer inspects.  Items
of a list / iterable payload are dictionaries with or without a `'text'`
key, objects with a `.text` attribute, or bare strings. -/

/-- Item of a list-shaped or iterable-shaped caption payload. -/
inductive Seg
  | dictText (t : List Char)
  | dictNoText
  | objText (t : List Char)
  | strSeg (t : List Char)
deriving DecidableEq

/-- Raw caption payload handed to `_format_transcript`.  `opaqueObj r`
stands for any other object whose `str()` conversion is `r`; `iterObj`
carries its `str()` conversion as well, used when no item yields text. -/
inductive Payload
  | listP (items : List Seg)
  | textObj (t : List Char)
  | iterObj (items : List Seg) (r : List Char)
  | bareStr (t : List Char)
  | opaqueObj (r : List Char)
deriving DecidableEq

/-- One item of the list branch (line 507): a `dict` item contributes its
stripped text when `'text' in item and item['text']`; a non-dict item makes
`'text' in item` raise `TypeError` (`.error`), which the outer handler at
line 562 turns into `""`.  For a string item, Python `'text' in item` is a
substring test, and a hit makes `item['text']` raise. -/
def segKeep : Seg → Except Unit (Option (List Char))
  | .dictText t => .ok (if t = [] then none else some (pyStrip t))
  | .dictNoText => .ok none
  | .objText _ => .error ()
  | .strSeg t => if (pys "text") <:+: t then .error () else .ok none

/-- Collect the texts of a list payload, propagating a raised `TypeError`. -/
def segTexts : List Seg → Option (List (List Char))
  | [] => some []
  | item :: rest =>
    match segKeep item with
    | .error _ => none
    | .ok kept =>
      match segTexts rest with
      | none => none
      | some ts =>
        some (match kept with | none => ts | some t => t :: ts)

/-- One item of the iterable branch (lines 536-543): objects with a truthy
`.text`, dicts with a truthy `'text'`, and strings with nonempty strip
contribute their stripped text. -/
def iterItemText : Seg → Option (List Char)
  | .objText t => if t = [] then none else some (pyStrip t)
  | .dictText t => if t = [] then none else some (pyStrip t)
  | .dictNoText => none
  | .strSeg t => if pyStrip t = [] then none else some (pyStrip t)

/-- Last-resort `str()` conversion (lines 550-558): the stripped string is
returned unless it is empty or the literal string `"None"`. -/
def strConv (r : List Char) : List Char :=
  let res := pyStrip r
  if res ≠ [] ∧ res ≠ pys "None" then res else []

/-- Embedding of `_format_transcript` (youtube_utils.py lines 474-564).
`none` stands for a `None` payload.  Every branch of the source is wrapped
in the outer `try/except` returning `""`, so the embedding is total. -/
def formatTranscript : Option Payload → List Char
  | none => []
  | some (.listP items) =>
    if items = [] then []
    else
      match segTexts items with
      | none => []
      | some ts => joinSp ts
  | some (.textObj t) => if t = [] then [] else pyStrip t
  | some (.iterObj items r) =>
    let ts := items.filterMap iterItemText
    if ts = [] then strConv r else joinSp ts
  | some (.bareStr t) => strConv t
  | some (.opaqueObj r) => strConv r

/-!  Model of `_get_language_variants` (youtube_utils.py lines 567-646). -/

/-- The curated variant table of `_get_language_variants`. -/
def variantTable : List (List Char × List (List Char)) :=
  [ (pys "am", [pys "am", pys "am-ET", pys "amh"])
  , (pys "ar", [pys "ar", pys "ar-SA", pys "ar-EG", pys "ar-AE", pys "ar-JO", pys "ar-LB", pys "ar-MA"])
  , (pys "zh", [pys "zh", pys "zh-CN", pys "zh-TW", pys "zh-Hans", pys "zh-Hant", pys "zh-HK"])
  , (pys "en", [pys "en", pys "en-US", pys "en-GB", pys "en-CA", pys "en-AU", pys "en-IN"])
  , (pys "es", [pys "es", pys "es-ES", pys "es-MX", pys "es-AR", pys "es-CO", pys "es-PE"])
  , (pys "fr", [pys "fr", pys "fr-FR", pys "fr-CA", pys "fr-BE", pys "fr-CH"])
  , (pys "de", [pys "de", pys "de-DE", pys "de-AT", pys "de-CH"])
  , (pys "hi", [pys "hi", pys "hi-IN", pys "hin"])
  , (pys "ja", [pys "ja", pys "ja-JP", pys "jpn"])
  , (pys "ko", [pys "ko", pys "ko-KR", pys "kor"])
  , (pys "pt", [pys "pt", pys "pt-BR", pys "pt-PT", pys "pt-AO"])
  , (pys "ru", [pys "ru", pys "ru-RU", pys "rus"])
  , (pys "sw", [pys "sw", pys "sw-KE", pys "sw-TZ", pys "sw-UG", pys "swa"])
  , (pys "rw", [pys "rw", pys "rw-RW", pys "kin"])
  , (pys "tr", [pys "tr", pys "tr-TR", pys "tur"])
  , (pys "ti", [pys "ti", pys "ti-ET", pys "ti-ER", pys "tir"])
  , (pys "om", [pys "om", pys "om-ET", pys "orm"])
  , (pys "so", [pys "so", pys "so-SO", pys "so-ET", pys "som"])
  , (pys "ha", [pys "ha", pys "ha-NG", pys "ha-GH", pys "hau"])
  , (pys "yo", [pys "yo", pys "yo-NG", pys "yor"])
  , (pys "ig", [pys "ig", pys "ig-NG", pys "ibo"])
  , (pys "bn", [pys "bn", pys "bn-BD", pys "bn-IN", pys "ben"])
  , (pys "ur", [pys "ur", pys "ur-PK", pys "ur-IN", pys "urd"])
  , (pys "fa", [pys "fa", pys "fa-IR", pys "per"])
  , (pys "th", [pys "th", pys "th-TH", pys "tha"])
  , (pys "vi", [pys "vi", pys "vi-VN", pys "vie"])
  , (pys "he", [pys "he", pys "he-IL", pys "heb"])
  , (pys "ta", [pys "ta", pys "ta-IN", pys "ta-LK", pys "tam"])
  , (pys "te", [pys "te", pys "te-IN", pys "tel"])
  , (pys "ml", [pys "ml", pys "ml-IN", pys "mal"])
  , (pys "kn", [pys "kn", pys "kn-IN", pys "kan"])
  , (pys "gu", [pys "gu", pys "gu-IN", pys "guj"])
  , (pys "mr", [pys "mr", pys "mr-IN", pys "mar"])
  , (pys "ne", [pys "ne", pys "ne-NP", pys "nep"])
  , (pys "si", [pys "si", pys "si-LK", pys "sin"])
  , (pys "my", [pys "my", pys "my-MM", pys "mya"])
  , (pys "km", [pys "km", pys "km-KH", pys "khm"])
  , (pys "lo", [pys "lo", pys "lo-LA", pys "lao"])
  , (pys "ka", [pys "ka", pys "ka-GE", pys "geo"])
  , (pys "hy", [pys "hy", pys "hy-AM", pys "arm"])
  , (pys "az", [pys "az", pys "az-AZ", pys "aze"])
  , (pys "kk", [pys "kk", pys "kk-KZ", pys "kaz"])
  , (pys "ky", [pys "ky", pys "ky-KG", pys "kir"])
  , (pys "uz", [pys "uz", pys "uz-UZ", pys "uzb"])
  , (pys "tg", [pys "tg", pys "tg-TJ", pys "tgk"])
  , (pys "mn", [pys "mn", pys "mn-MN", pys "mon"]) ]

/-- Embedding of `_get_language_variants`: the table entry for the base
language, else `[code, base]` plus heuristic country variants for
bare 2-letter codes. -/
def languageVariants (lc : List Char) : List (List Char) :=
  let base := baseOf lc
  match (variantTable.find? (fun e => e.1 == base)) with
  | some e => e.2
  | none =>
    let vs := [lc, base]
    if !lc.contains '-' && lc.length = 2 then
      vs ++ (["US", "GB", "CA", "AU", "IN", "ZA"].map (fun c => lc ++ '-' :: c.data))
    else vs

/-!  Model of `extract_transcript` (youtube_utils.py lines 105-471).

Upstream behaviour (the `youtube_transcript_api` and the audio pipeline)
is an oracle packed into a `World`.  Exceptions raised by the upstream are
values of `Exc`; the embedded control flow places each upstream call under
the same handler structure as the source. -/

/-- Exception classes relevant to `extract_transcript`:
`TranscriptsDisabled`, `NoTranscriptFound`, transient network errors and
any other unexpected exception. -/
inductive Exc
  | disabled
  | notFound
  | transient
  | other
deriving DecidableEq

/-- Outcome of a `fetch()`-style upstream call: raise, or return a payload. -/
inductive FetchOut
  | raises (e : Exc)
  | ret (p : Payload)
deriving DecidableEq

/-- One caption track of the upstream listing with its fetch behaviour. -/
structure Track where
  lang : List Char
  isGenerated : Bool
  fetch : FetchOut
deriving DecidableEq

/-- Outcome of `YouTubeTranscriptApi.list_transcripts`. -/
inductive ListingOut
  | raises (e : Exc)
  | ok (tracks : List Track)
deriving DecidableEq

/-- Upstream world of one resolution: the listing, the two direct
`get_transcript` fallbacks, and the audio-transcription pipeline
(module availability, `is_audio_transcription_available().any_available`,
and the outcome of `transcribe_youtube_audio` as error message or
`(text, is_auto_generated, detected_language)`). -/
structure World where
  listing : ListingOut
  directLang : FetchOut
  directAuto : FetchOut
  audioModule : Bool
  audioConfigured : Bool
  audioResult : Except (List Char) (List Char × Bool × List Char)

/-- Languages of the manually created tracks, in listing order (line 162). -/
def manualLangs (tracks : List Track) : List (List Char) :=
  (tracks.filter (fun t => !t.isGenerated)).map Track.lang

/-- Languages of the auto-generated tracks, in listing order (line 163). -/
def autoLangs (tracks : List Track) : List (List Char) :=
  (tracks.filter (fun t => t.isGenerated)).map Track.lang

/-- Auto-mode priority order (lines 181-210): manual non-English, manual
English, auto-generated non-English, auto-generated English, where
English-ness is the source's `lang.startswith('en')` test. -/
def prioAuto (tracks : List Track) : List (List Char) :=
  (manualLangs tracks).filter (fun l => !startsWithEn l)
    ++ (manualLangs tracks).filter startsWithEn
    ++ (autoLangs tracks).filter (fun l => !startsWithEn l)
    ++ (autoLangs tracks).filter startsWithEn

/-- One append pass of the specific-language priority construction: add
each element of `xs` satisfying `cond` that is not already present. -/
def addNewIf (cond : List Char → Bool) (xs : List (List Char))
    (acc : List (List Char)) : List (List Char) :=
  xs.foldl (fun a x => if cond x && !a.contains x then a ++ [x] else a) acc

/-- Specific-language priority order (lines 212-246), innermost stage
first: exact available match (line 216), then available variants
(lines 220-223), then same-base manual tracks (lines 226-230), same-base
auto tracks (lines 233-236), remaining manual tracks (lines 239-241) and
remaining auto tracks (lines 244-246), deduplicated in order. -/
def prioSpecific (tracks : List Track) (lc : List Char) : List (List Char) :=
  addNewIf (fun _ => true) (autoLangs tracks)
    (addNewIf (fun _ => true) (manualLangs tracks)
      (addNewIf (fun l => baseOf l == baseOf lc) (autoLangs tracks)
        (addNewIf (fun l => baseOf l == baseOf lc) (manualLangs tracks)
          (addNewIf (fun v => (tracks.map Track.lang).contains v) (languageVariants lc)
            (if (tracks.map Track.lang).contains lc then [lc] else [])))))

/-- Language priority order of `extract_transcript` (lines 177-246). -/
def priorityLanguages (tracks : List Track) (lc : List Char) : List (List Char) :=
  if lc == pys "auto" then prioAuto tracks else prioSpecific tracks lc

/-- Embedding of `TranscriptList.find_transcript([lang])`: the upstream
looks the language up among manually created tracks first, then among
generated ones, raising `NoTranscriptFound` (here `none`) on a miss. -/
def findTranscript (tracks : List Track) (l : List Char) : Option Track :=
  match tracks.find? (fun t => !t.isGenerated && t.lang == l) with
  | some t => some t
  | none => tracks.find? (fun t => t.isGenerated && t.lang == l)

/-- Python truthiness of a payload (`if not transcript_data:`): empty lists
and empty strings are falsy, other objects truthy. -/
def payloadTruthy : Payload → Bool
  | .listP items => !items.isEmpty
  | .textObj _ => true
  | .iterObj _ _ => true
  | .bareStr t => !t.isEmpty
  | .opaqueObj _ => true

/-- Python truthiness of the `transcript_data` variable. -/
def optTruthy : Option Payload → Bool
  | none => false
  | some p => payloadTruthy p

/-- State threaded through the candidate loop:
`(transcript_data, is_generated, actual_language)`. -/
abbrev LoopSt := Option Payload × Bool × List Char

/-- The candidate loop (lines 251-267): for each language in priority
order, `find_transcript` misses (`NoTranscriptFound`, caught) and fetch
exceptions (caught) continue the loop; the first fetch that returns breaks
out of the loop with the payload, whatever its content. -/
def fetchLoop (tracks : List Track) : List (List Char) → LoopSt → LoopSt
  | [], st => st
  | l :: rest, st =>
    match findTranscript tracks l with
    | none => fetchLoop tracks rest st
    | some t =>
      match t.fetch with
      | .raises _ => fetchLoop tracks rest st
      | .ret p => (some p, t.isGenerated, t.lang)

/-- First candidate language whose track exists and whose fetch returns
(rather than raises), with the returned payload. -/
def firstResponsive (tracks : List Track) : List (List Char) → Option (Track × Payload)
  | [] => none
  | l :: rest =>
    match findTranscript tracks l with
    | none => firstResponsive tracks rest
    | some t =>
      match t.fetch with
      | .raises _ => firstResponsive tracks rest
      | .ret p => some (t, p)

/-- The failure value of `extract_transcript` with `return_raw=False`:
`("", False, "")`. -/
def sentinel : List Char × Bool × List Char := ([], false, [])

/-- Embedding of the audio-fallback handler body (lines 346-404 and the
duplicate at 411-468): availability checks, `transcribe_youtube_audio`
under `except AudioTranscriptionError` / `except Exception` both returning
the sentinel, and the acceptance gate
`transcript_text and len(transcript_text.strip()) > 10`.
(The AI-enhancement step only annotates `raw_data` and is invisible in the
`return_raw=False` result modelled here.) -/
def audioFallback (w : World) : List Char × Bool × List Char :=
  if !w.audioModule then sentinel
  else if !w.audioConfigured then sentinel
  else
    match w.audioResult with
    | .error _ => sentinel
    | .ok (text, isGen, detLang) =>
      if text ≠ [] ∧ (pyStrip text).length > 10 then (text, isGen, detLang)
      else sentinel

/-- Final formatting step of the `try:` body (lines 310-341): when
`transcript_data` is truthy, format it; empty or whitespace-only formatted
text returns the sentinel (lines 321-328), otherwise the
`(text, is_generated, actual_language)` success; falsy data returns the
sentinel (lines 339-341). -/
def finalizeData (st : LoopSt) : Except Exc (List Char × Bool × List Char) :=
  match st.1 with
  | some p =>
    if payloadTruthy p then
      let txt := formatTranscript (some p)
      if txt = [] then .ok sentinel
      else if pyStrip txt = [] then .ok sentinel
      else .ok (txt, st.2.1, st.2.2)
    else .ok sentinel
  | none => .ok sentinel

/-- Embedding of the `try:` body of `extract_transcript`
(lines 138-341).  Every upstream call inside the body sits under its own
`except Exception` (listing: line 168; loop: lines 262-267; first
available: lines 279-282; direct fetch: lines 306-308), so the body never
lets an exception escape: it always produces `Except.ok`.  The `Except`
result type records where the outer handlers of lines 342-471 would
attach. -/
def tryBody (w : World) (langCode : List Char) :
    Except Exc (List Char × Bool × List Char) :=
  let tl : Option (List Track) :=
    match w.listing with
    | .ok tracks => some tracks
    | .raises _ => none
  let st0 : LoopSt := (none, true, langCode)
  let st1 : LoopSt :=
    match tl with
    | some tracks =>
      let stL := fetchLoop tracks (priorityLanguages tracks langCode) st0
      if optTruthy stL.1 then stL
      else
        match tracks.head? with
        | some t0 =>
          (match t0.fetch with
           | .ret p => (some p, t0.isGenerated, t0.lang)
           | .raises _ => (none, stL.2.1, stL.2.2))
        | none => stL
    | none => st0
  let st2 : LoopSt :=
    if optTruthy st1.1 then st1
    else if langCode == pys "auto" then
      match w.directAuto with
      | .ret p => (some p, true, pys "auto")
      | .raises _ => (none, st1.2.1, st1.2.2)
    else
      match w.directLang with
      | .ret p => (some p, true, langCode)
      | .raises _ =>
        match w.directAuto with
        | .ret p => (some p, true, pys "auto")
        | .raises _ => (none, st1.2.1, st1.2.2)
  finalizeData st2

/-- Embedding of `extract_transcript` (with `return_raw=False`, for a valid
video id): the `try:` body, then the outer handlers — audio fallback for
`TranscriptsDisabled` (line 342) and `NoTranscriptFound` (line 406), and
the catch-all returning the sentinel (lines 469-471). -/
def extractTranscript (w : World) (langCode : List Char) :
    List Char × Bool × List Char :=
  match tryBody w langCode with
  | .ok r => r
  | .error .disabled => audioFallback w
  | .error .notFound => audioFallback w
  | .error _ => sentinel

/-!  Concrete worlds used by the claim theorems. -/

/-- Audio pipeline absent / irrelevant. -/
def noAudio : Except (List Char) (List Char × Bool × List Char) :=
  .error (pys "unused")

/-- World of the auto-mode priority scenario: one manual French track, one
manual English track, one auto-generated Spanish track, all fetchable. -/
def wC1 : World :=
  { listing := .ok
      [ { lang := pys "fr", isGenerated := false
        , fetch := .ret (.listP [.dictText (pys "bonjour le monde")]) }
      , { lang := pys "en", isGenerated := false
        , fetch := .ret (.listP [.dictText (pys "hello world")]) }
      , { lang := pys "es", isGenerated := true
        , fetch := .ret (.listP [.dictText (pys "hola mundo")]) } ]
  , directLang := .raises .other, directAuto := .raises .other
  , audioModule := false, audioConfigured := false, audioResult := noAudio }

/-- World of the empty-first-candidate scenario: the first manual track
fetches a whitespace-only segment, the second fetches real text. -/
def wC2ce : World :=
  { listing := .ok
      [ { lang := pys "fr", isGenerated := false
        , fetch := .ret (.listP [.dictText (pys " ")]) }
      , { lang := pys "de", isGenerated := false
        , fetch := .ret (.listP [.dictText (pys "bonjour")]) } ]
  , directLang := .raises .other, directAuto := .raises .other
  , audioModule := false, audioConfigured := false, audioResult := noAudio }

/-- World of the disabled-captions scenario: the caption listing raises
`TranscriptsDisabled`, the direct fetches raise it too, and the audio
pipeline is configured and would transcribe successfully. -/
def wC3 : World :=
  { listing := .raises .disabled
  , directLang := .raises .disabled, directAuto := .raises .disabled
  , audioModule := true, audioConfigured := true
  , audioResult := .ok (pys "hello world this is a test", true, pys "en") }

/-- Tracks of the variant-fallback scenario: a listing containing only an
`am-ET` manual track. -/
def wC4tracks : List Track :=
  [ { lang := pys "am-ET", isGenerated := false
    , fetch := .ret (.listP [.dictText (pys "selam lealem")]) } ]

/-- World of the variant-fallback scenario. -/
def wC4 : World :=
  { listing := .ok wC4tracks
  , directLang := .raises .other, directAuto := .raises .other
  , audioModule := false, audioConfigured := false, audioResult := noAudio }

/-- Tracks used by the C4 witness: a listing that contains the requested
code `am` itself. -/
def wC4wTracks : List Track :=
  [ { lang := pys "am", isGenerated := false
    , fetch := .ret (.listP [.dictText (pys "selam")]) }
  , { lang := pys "am-ET", isGenerated := true
    , fetch := .ret (.listP [.dictText (pys "selam lealem")]) } ]

/-!  Model of `YouTubeAudioDownloader.download_audio` and
`transcribe_youtube_audio` (audio_transcription.py). -/

/-- The message of the `AudioTranscriptionError` produced for an over-long
video: the inner message of lines 117-120 wrapped by the re-raise of
line 144 (`f"Failed to download audio: {str(e)}"`). -/
def tooLongMsg (duration maxDuration : Nat) : List Char :=
  pys "Failed to download audio: Video too long ("
    ++ Nat.toDigits 10 duration ++ pys "s > " ++ Nat.toDigits 10 maxDuration
    ++ pys "s). Audio transcription is limited to shorter videos."

/-- Embedding of the duration gate of `download_audio` (lines 110-120):
when the source duration is over the cap the call raises the too-long
`AudioTranscriptionError`; otherwise the rest of the download proceeds
with outcome `rest` (error message, or path of the downloaded file). -/
def downloadAudio (duration maxDuration : Nat)
    (rest : Except (List Char) (List Char)) : Except (List Char) (List Char) :=
  if duration > maxDuration then .error (tooLongMsg duration maxDuration) else rest

/-- Upstream behaviour of one `transcribe_youtube_audio` run: the download
outcome (`none` = `download_audio` raised; `some path` = file created at
`path`) and the transcription outcome for that file
(raise, or `(text, language)`). -/
structure AudioJob where
  downloadPath : Option (List Char)
  transcribeOut : Except Unit (List Char × List Char)

/-- Embedding of `transcribe_youtube_audio` (lines 401-467) over an
explicit filesystem (the list of existing file paths).  The `finally:`
block deletes the downloaded artifact whenever `cleanup` is set and the
path exists, on every exit path; an exit before a successful download
leaves the filesystem untouched.  Returns the `(text, True,
detected_language)` result (or the raised error) together with the final
filesystem. -/
def transcribeYoutubeAudio (job : AudioJob) (cleanup : Bool)
    (fs : List (List Char)) :
    Except Unit (List Char × Bool × List Char) × List (List Char) :=
  match job.downloadPath with
  | none => (.error (), fs)
  | some path =>
    let fs1 := if fs.contains path then fs else fs ++ [path]
    let fsEnd := if cleanup && fs1.contains path then fs1.erase path else fs1
    match job.transcribeOut with
    | .error _ => (.error (), fsEnd)
    | .ok (text, lang) =>
      if pyStrip text = [] then (.error (), fsEnd)
      else (.ok (text, true, lang), fsEnd)

/-!  Model of the input-trimming step of the summarizers
(mistral_utils.py lines 131-135 and 238-242, ollama_utils.py
lines 230-237). -/

/-- The elision marker the trimming step inserts between the kept head and
tail of an over-long text. -/
def elisionMarker : List Char :=
  pys "\n...[content in the middle omitted for length]...\n"

/-- Embedding of the 80/20 trim: `text[:int(max_length*0.8)] + marker +
text[-int(max_length*0.2):]` when `len(text) > max_length` (Python
`int(n*0.8)` and `int(n*0.2)` are embedded as the exact floors `n*8/10`
and `n*2/10`; `text[-0:]` is the whole text). -/
def pyTrim8020 (text : List Char) (maxLen : Nat) : List Char :=
  if text.length > maxLen then
    text.take (maxLen * 8 / 10) ++ elisionMarker
      ++ (if maxLen * 2 / 10 = 0 then text
          else text.drop (text.length - maxLen * 2 / 10))
  else text

/-- The text placed into the prompt by `get_mistral_summary_with_requests`
(mistral_utils.py lines 131-135): the trim is unconditional on input
length. -/
def mistralRequestsText (text : List Char) (maxLen : Nat) : List Char :=
  pyTrim8020 text maxLen

/-- The text placed into the prompt by ollama_utils `get_mistral_summary`
(lines 230-237): the trim is applied only when the VPS model is not in
use (`if not use_vps_model() and len(text) > max_length:`). -/
def ollamaText (useVps : Bool) (text : List Char) (maxLen : Nat) : List Char :=
  if !useVps && text.length > maxLen then pyTrim8020 text maxLen else text

/-!  Model of `get_ai_summary` (ai_service.py lines 53-164). -/

/-- Outcome of one backend call: a returned value (`None` or a string,
with empty strings falsy) or a raised exception. -/
inductive CallResult
  | ret (r : Option (List Char))
  | raised
deriving DecidableEq

/-- The value a backend attempt contributes: its returned string when
truthy (`if summary:`), nothing on `None`, empty string, or exception. -/
def callOk : CallResult → Option (List Char)
  | .ret (some s) => if s = [] then none else some s
  | .ret none => none
  | .raised => none

/-- Environment and backend behaviour of one `get_ai_summary` call:
`is_railway_environment()`, `use_remote_ollama()`,
`is_ollama_available()`, presence of `MISTRAL_API_KEY`, and the outcomes
of the four distinct backend call sites (remote Ollama with
`host="localhost"`, plain Ollama, requests-based Mistral, official
Mistral client). -/
structure AIEnv where
  railway : Bool
  useRemote : Bool
  ollamaAvailable : Bool
  hasKey : Bool
  remoteOllama : CallResult
  localOllama : CallResult
  mistralRequests : CallResult
  mistralClient : CallResult

/-- Embedding of `get_ai_summary`: empty/whitespace-only input returns
`None` at once (lines 69-71); then the Railway-with-remote-Ollama attempt
(lines 79-99), then either the Railway Mistral attempts (lines 102-129) or
the local branch (lines 131-160: Ollama, then the Mistral client
fallback).  Every backend call sits under `try/except`, so a raise or a
falsy return moves to the next attempt; `None` is returned only at the
end (lines 162-164). -/
def getAISummary (env : AIEnv) (text : List Char) : Option (List Char) :=
  if pyStrip text = [] then none
  else
    let afterRemote : Option (List Char) :=
      if env.railway && env.useRemote && env.ollamaAvailable then
        callOk env.remoteOllama
      else none
    match afterRemote with
    | some s => some s
    | none =>
      if env.railway && !env.useRemote then
        match (if env.hasKey then callOk env.mistralRequests else none) with
        | some s => some s
        | none => if env.hasKey then callOk env.mistralClient else none
      else
        match (if env.ollamaAvailable then callOk env.localOllama else none) with
        | some s => some s
        | none => if env.hasKey then callOk env.mistralClient else none

/-- The sequence of backend attempts `get_ai_summary` makes in a given
environment, in order. -/
def attempts (env : AIEnv) : List CallResult :=
  (if env.railway && env.useRemote && env.ollamaAvailable then [env.remoteOllama] else [])
    ++ (if env.railway && !env.useRemote then
          (if env.hasKey then [env.mistralRequests, env.mistralClient] else [])
        else
          (if env.ollamaAvailable then [env.localOllama] else [])
            ++ (if env.hasKey then [env.mistralClient] else []))

/-- Environment of the backend-fallback scenario: local context, Ollama
available but always raising, Mistral key present and returning a
summary. -/
def envAB : AIEnv :=
  { railway := false, useRemote := false, ollamaAvailable := true, hasKey := true
  , remoteOllama := .raised, localOllama := .raised
  , mistralRequests := .raised, mistralClient := .ret (some (pys "summary from B")) }

/-- Environment of the empty-input counterexample: a single configured and
succeeding backend. -/
def envC6ce : AIEnv :=
  { railway := false, useRemote := false, ollamaAvailable := true, hasKey := false
  , remoteOllama := .raised, localOllama := .ret (some (pys "good summary"))
  , mistralRequests := .raised, mistralClient := .raised }

/-- Plain success world used to exercise the non-empty invariant: a single
manual French track with real text. -/
def wC2ok : World :=
  { listing := .ok
      [ { lang := pys "fr", isGenerated := false
        , fetch := .ret (.listP [.dictText (pys "bonjour le monde")]) } ]
  , directLang := .raises .other, directAuto := .raises .other
  , audioModule := false, audioConfigured := false, audioResult := noAudio }

/-- Soft-failure world: the listing succeeds with no tracks at all and the
direct fetches raise `NoTranscriptFound`. -/
def wC7soft : World :=
  { listing := .ok []
  , directLang := .raises .notFound, directAuto := .raises .notFound
  , audioModule := true, audioConfigured := true, audioResult := noAudio }

/-- Hard-failure world: the listing and the direct fetches raise an
unexpected exception (e.g. a malformed upstream response). -/
def wC7hard : World :=
  { listing := .raises .other
  , directLang := .raises .other, directAuto := .raises .other
  , audioModule := true, audioConfigured := true, audioResult := noAudio }

/-- World used by the exhaustion witness: every upstream call raises. -/
def wC7w : World :=
  { listing := .raises .transient
  , directLang := .raises .transient, directAuto := .raises .transient
  , audioModule := false, audioConfigured := false, audioResult := noAudio }

/-- World of the duration-exceeded scenario: captions disabled, audio
configured, and `transcribe_youtube_audio` raising the too-long
`AudioTranscriptionError` for a 5000-second video against a 3600-second
cap. -/
def wC8 : World :=
  { listing := .raises .disabled
  , directLang := .raises .disabled, directAuto := .raises .disabled
  , audioModule := true, audioConfigured := true
  , audioResult := .error (tooLongMsg 5000 3600) }

/-!  Lemmas about `pyStrip` and `joinSp`. -/

theorem dropWhile_head_false {c : Char} {l : List Char}
    (h : List.dropWhile pySpace (c :: l) = c :: l) : pySpace c = false := by
  by_contra hc
  rw [Bool.not_eq_false] at hc
  rw [List.dropWhile_cons, if_pos hc] at h
  have hle := (List.dropWhile_suffix (l := l) pySpace).length_le
  have h2 : (List.dropWhile pySpace l).length = l.length + 1 := by
    rw [h]; simp
  omega

theorem dropWhile_self_of_head {c : Char} {l : List Char}
    (h : pySpace c = false) : List.dropWhile pySpace (c :: l) = c :: l := by
  rw [List.dropWhile_cons, if_neg (by simp [h])]

theorem pyStrip_parts {l : List Char} (h : pyStrip l = l) :
    List.dropWhile pySpace l = l ∧
      List.dropWhile pySpace l.reverse = l.reverse := by
  have hA := List.dropWhile_suffix (l := l) pySpace
  have hB := List.dropWhile_suffix (l := (List.dropWhile pySpace l).reverse) pySpace
  have hBrev :
      (List.dropWhile pySpace (List.dropWhile pySpace l).reverse).reverse = l := h
  have hlenB :
      (List.dropWhile pySpace (List.dropWhile pySpace l).reverse).length = l.length := by
    conv_rhs => rw [← hBrev]
    simp
  have hlenA : (List.dropWhile pySpace l).length = l.length := by
    have h1 := hA.length_le
    have h2 := hB.length_le
    simp only [List.length_reverse] at h2
    omega
  have hAeq : List.dropWhile pySpace l = l := hA.eq_of_length hlenA
  refine ⟨hAeq, ?_⟩
  rw [hAeq] at hBrev
  rw [← List.reverse_reverse (List.dropWhile pySpace l.reverse), hBrev]

theorem pyStrip_of_parts {l : List Char}
    (h1 : List.dropWhile pySpace l = l)
    (h2 : List.dropWhile pySpace l.reverse = l.reverse) : pyStrip l = l := by
  unfold pyStrip
  rw [h1, h2, List.reverse_reverse]

theorem dropWhile_append_fix {l m : List Char} (hne : l ≠ [])
    (h : List.dropWhile pySpace l = l) :
    List.dropWhile pySpace (l ++ m) = l ++ m := by
  cases l with
  | nil => exact absurd rfl hne
  | cons c ls =>
    have hc := dropWhile_head_false h
    simp [List.dropWhile_cons, hc]

theorem joinSp_ne_nil {ts : List (List Char)} (hne : ts ≠ [])
    (h : ∀ t ∈ ts, t ≠ []) : joinSp ts ≠ [] := by
  match ts with
  | [t] => exact h t (by simp)
  | t :: r :: rs =>
    show t ++ ' ' :: joinSp (r :: rs) ≠ []
    simp

theorem joinSp_dropWhile {ts : List (List Char)} (hne : ts ≠ [])
    (h : ∀ t ∈ ts, t ≠ [] ∧ List.dropWhile pySpace t = t) :
    List.dropWhile pySpace (joinSp ts) = joinSp ts := by
  match ts with
  | [t] => exact (h t (by simp)).2
  | t :: r :: rs =>
    show List.dropWhile pySpace (t ++ ' ' :: joinSp (r :: rs))
        = t ++ ' ' :: joinSp (r :: rs)
    exact dropWhile_append_fix (h t (by simp)).1 (h t (by simp)).2

theorem joinSp_append_single {ts : List (List Char)} (hne : ts ≠ [])
    (t : List Char) : joinSp (ts ++ [t]) = joinSp ts ++ ' ' :: t := by
  induction ts with
  | nil => exact absurd rfl hne
  | cons a rest ih =>
    cases rest with
    | nil => rfl
    | cons b bs =>
      show a ++ ' ' :: joinSp ((b :: bs) ++ [t])
          = (a ++ ' ' :: joinSp (b :: bs)) ++ ' ' :: t
      rw [ih (by simp)]
      simp

theorem joinSp_reverse (ts : List (List Char)) :
    (joinSp ts).reverse = joinSp ((ts.map List.reverse).reverse) := by
  induction ts with
  | nil => rfl
  | cons t rest ih =>
    cases rest with
    | nil => rfl
    | cons b bs =>
      rw [List.map_cons, List.reverse_cons]
      show (t ++ ' ' :: joinSp (b :: bs)).reverse
          = joinSp ((((b :: bs).map List.reverse).reverse) ++ [t.reverse])
      rw [joinSp_append_single (by simp), ← ih]
      simp

theorem pyStrip_joinSp {ts : List (List Char)} (hne : ts ≠ [])
    (h : ∀ t ∈ ts, t ≠ [] ∧ pyStrip t = t) :
    pyStrip (joinSp ts) = joinSp ts := by
  apply pyStrip_of_parts
  · exact joinSp_dropWhile hne
      (fun t ht => ⟨(h t ht).1, (pyStrip_parts (h t ht).2).1⟩)
  · rw [joinSp_reverse]
    apply joinSp_dropWhile
    · simp [hne]
    · intro x hx
      rw [List.mem_reverse, List.mem_map] at hx
      obtain ⟨t, ht, rfl⟩ := hx
      refine ⟨by simp [(h t ht).1], ?_⟩
      exact (pyStrip_parts (h t ht).2).2

/-!  Lemmas for the `_format_transcript` equivalences. -/

theorem segTexts_dictText (ts : List (List Char)) (h : ∀ t ∈ ts, t ≠ []) :
    segTexts (ts.map Seg.dictText) = some (ts.map pyStrip) := by
  induction ts with
  | nil => rfl
  | cons t rest ih =>
    have hr := ih (fun x hx => h x (by simp [hx]))
    have ht : t ≠ [] := h t (by simp)
    simp [segTexts, segKeep, ht, hr]

/-- C10 — counterexample.  The claim states that the three recognized
payload shapes with equivalent underlying text normalize to equivalent
transcript text for every payload.  For the underlying text `"None"` this
fails: the bare-string shape goes through the `str()` fallback, whose
guard `result != "None"` (line 553) maps it to `""`, while the
list-of-dicts and text-attribute shapes return `"None"`. -/
theorem claim_C10_counterexample :
    formatTranscript (some (.bareStr (pys "None"))) = []
    ∧ formatTranscript (some (.listP [Seg.dictText (pys "None")])) = pys "None"
    ∧ formatTranscript (some (.textObj (pys "None"))) = pys "None"
    ∧ pys "None" ≠ [] := by decide

/-- C10 — amended claim.  The normalizer `_format_transcript` is total
(never raises: every branch of the embedding is a returned value), it
degrades unrecognized payloads to the `str()` conversion of the whole
payload, and the three recognized shapes (list-of-dicts, text-attribute
object, bare string) carrying equivalent underlying trimmed text
normalize to equivalent transcript text — except for the pathological
underlying text `"None"`, which the bare-string fallback maps to `""`. -/
theorem claim_C10 :
    ∀ ts : List (List Char), ts ≠ [] → (∀ t ∈ ts, t ≠ [] ∧ pyStrip t = t) →
      joinSp ts ≠ pys "None" →
      formatTranscript (some (.listP (ts.map Seg.dictText))) = joinSp ts
      ∧ formatTranscript (some (.textObj (joinSp ts))) = joinSp ts
      ∧ formatTranscript (some (.bareStr (joinSp ts))) = joinSp ts
      ∧ (∀ r, formatTranscript (some (.opaqueObj r)) = strConv r)
      ∧ formatTranscript none = [] := by
  intro ts hne h hNone
  have hjne : joinSp ts ≠ [] := joinSp_ne_nil hne (fun t ht => (h t ht).1)
  have hjstrip : pyStrip (joinSp ts) = joinSp ts := pyStrip_joinSp hne h
  have hmap : ts.map pyStrip = ts := by
    have hx : ts.map pyStrip = ts.map id :=
      List.map_congr_left (fun t ht => (h t ht).2)
    simpa using hx
  refine ⟨?_, ?_, ?_, fun r => rfl, rfl⟩
  · simp only [formatTranscript]
    rw [if_neg (by simp [hne]), segTexts_dictText ts (fun t ht => (h t ht).1)]
    show joinSp (ts.map pyStrip) = joinSp ts
    rw [hmap]
  · simp only [formatTranscript]
    rw [if_neg hjne, hjstrip]
  · simp only [formatTranscript, strConv, hjstrip]
    rw [if_pos ⟨hjne, hNone⟩]

/-- C10 — witness: the amended claim applied to the singleton text
`"hello"`. -/
theorem claim_C10_witness :
    formatTranscript (some (.listP [Seg.dictText (pys "hello")])) = pys "hello"
    ∧ formatTranscript (some (.textObj (pys "hello"))) = pys "hello"
    ∧ formatTranscript (some (.bareStr (pys "hello"))) = pys "hello" :=
  let h := claim_C10 [pys "hello"] (by decide) (by decide) (by decide)
  ⟨h.1, h.2.1, h.2.2.1⟩

/-!  Structural lemmas about the resolver. -/

theorem fetchLoop_spec (tracks : List Track) (prio : List (List Char)) (st : LoopSt) :
    fetchLoop tracks prio st =
      match firstResponsive tracks prio with
      | some (t, p) => (some p, t.isGenerated, t.lang)
      | none => st := by
  induction prio with
  | nil => rfl
  | cons l rest ih =>
    show (match findTranscript tracks l with
          | none => fetchLoop tracks rest st
          | some t =>
            match t.fetch with
            | .raises _ => fetchLoop tracks rest st
            | .ret p => (some p, t.isGenerated, t.lang)) = _
    cases hf : findTranscript tracks l with
    | none => simp [firstResponsive, hf, ih]
    | some t =>
      cases hfe : t.fetch with
      | raises e => simp [firstResponsive, hf, hfe, ih]
      | ret p => simp [firstResponsive, hf, hfe]

theorem finalizeData_shape (st : LoopSt) :
    finalizeData st = .ok sentinel
    ∨ ∃ txt g lg, finalizeData st = .ok (txt, g, lg) ∧ txt ≠ [] ∧ pyStrip txt ≠ [] := by
  obtain ⟨d, g0, l0⟩ := st
  cases d with
  | none => exact Or.inl rfl
  | some p =>
    by_cases hp : payloadTruthy p = true
    · by_cases h1 : formatTranscript (some p) = []
      · left
        simp [finalizeData, hp, h1]
      · by_cases h2 : pyStrip (formatTranscript (some p)) = []
        · left
          simp [finalizeData, hp, h1, h2]
        · right
          refine ⟨formatTranscript (some p), g0, l0, ?_, h1, h2⟩
          simp [finalizeData, hp, h1, h2]
    · left
      simp [finalizeData, hp]

theorem tryBody_eq_finalize (w : World) (lc : List Char) :
    ∃ st, tryBody w lc = finalizeData st := ⟨_, rfl⟩

theorem tryBody_shape (w : World) (lc : List Char) :
    tryBody w lc = .ok sentinel
    ∨ ∃ txt g lg, tryBody w lc = .ok (txt, g, lg) ∧ txt ≠ [] ∧ pyStrip txt ≠ [] := by
  obtain ⟨st, h⟩ := tryBody_eq_finalize w lc
  rw [h]
  exact finalizeData_shape st

theorem extract_eq_of_tryBody (w : World) (lc : List Char)
    (r : List Char × Bool × List Char) (h : tryBody w lc = .ok r) :
    extractTranscript w lc = r := by
  unfold extractTranscript
  rw [h]

theorem extract_shape (w : World) (lc : List Char) :
    extractTranscript w lc = sentinel
    ∨ ((extractTranscript w lc).1 ≠ [] ∧ pyStrip (extractTranscript w lc).1 ≠ []) := by
  rcases tryBody_shape w lc with h | ⟨txt, g, lg, h, h1, h2⟩
  · exact Or.inl (extract_eq_of_tryBody w lc _ h)
  · right
    rw [extract_eq_of_tryBody w lc _ h]
    exact ⟨h1, h2⟩

/-- C1 — confirmed.  In auto mode the candidate priority order is the
concatenation of manually authored non-English tracks, manual English
tracks, auto-generated non-English tracks and auto-generated English
tracks (English-ness being the source's `lang.startswith('en')` test),
each group in listing order; and on the synthetic listing with one manual
non-English track, one manual English track and one auto-generated
non-English track, the resolver selects the manual non-English track. -/
theorem claim_C1 :
    (∀ tracks, prioAuto tracks =
        (tracks.filter (fun t => !t.isGenerated && !startsWithEn t.lang)).map Track.lang
        ++ (tracks.filter (fun t => !t.isGenerated && startsWithEn t.lang)).map Track.lang
        ++ (tracks.filter (fun t => t.isGenerated && !startsWithEn t.lang)).map Track.lang
        ++ (tracks.filter (fun t => t.isGenerated && startsWithEn t.lang)).map Track.lang)
    ∧ extractTranscript wC1 (pys "auto") = (pys "bonjour le monde", false, pys "fr") := by
  refine ⟨?_, by decide⟩
  intro tracks
  have grp : ∀ (gen : Track → Bool) (q : List Char → Bool),
      ((tracks.filter gen).map Track.lang).filter q
        = (tracks.filter (fun t => gen t && q t.lang)).map Track.lang := by
    intro gen q
    rw [List.filter_map, List.filter_filter]
    exact congrArg _ (List.filter_congr (fun t _ => by simp [Function.comp, Bool.and_comm]))
  unfold prioAuto manualLangs autoLangs
  rw [grp, grp, grp, grp]

/-- C2 — counterexample.  The claim states that the fetch loop passes over
candidates whose fetched text is empty and accepts the first candidate
with non-empty normalized text.  In `wC2ce` the first candidate (manual
French) fetches a whitespace-only segment and the second (manual German)
fetches `"bonjour"`; the claim predicts success with `"bonjour"`, but the
loop breaks on the first fetch that returns (line 260) regardless of
content, so the resolution fails with the sentinel. -/
theorem claim_C2_counterexample :
    extractTranscript wC2ce (pys "auto") = ([], false, [])
    ∧ formatTranscript (some (.listP [Seg.dictText (pys "bonjour")])) = pys "bonjour"
    ∧ pys "bonjour" ≠ [] := by decide

/-- C2 — amended claim.  The non-empty invariant holds: whenever the
resolver reports success (a non-sentinel text) the returned text is
non-whitespace-only.  But the fetch loop accepts the first candidate
whose fetch returns (does not raise), regardless of the fetched text:
`fetchLoop` is exactly determined by `firstResponsive`, and a responsive
candidate whose formatted text is empty leads to overall failure rather
than to trying the next candidate. -/
theorem claim_C2 :
    (∀ w lc, (extractTranscript w lc).1 ≠ [] →
        pyStrip (extractTranscript w lc).1 ≠ [])
    ∧ (∀ tracks prio st, fetchLoop tracks prio st =
        match firstResponsive tracks prio with
        | some (t, p) => (some p, t.isGenerated, t.lang)
        | none => st) := by
  constructor
  · intro w lc h
    rcases extract_shape w lc with hs | ⟨_, h2⟩
    · rw [hs] at h
      exact absurd rfl h
    · exact h2
  · exact fetchLoop_spec

/-- C2 — witness: the invariant applied to a world whose resolution
succeeds with `"bonjour le monde"`. -/
theorem claim_C2_witness :
    pyStrip (extractTranscript wC2ok (pys "auto")).1 ≠ [] :=
  claim_C2.1 wC2ok (pys "auto") (by decide)

/-- C3 — the claim is right and the code is wrong.  The audio fallback is
implemented in the `except TranscriptsDisabled` / `except
NoTranscriptFound` handlers (lines 342-468), but the `try:` body catches
every upstream exception in inner catch-all handlers (listing: line 168;
candidate loop: lines 262-267; first available: lines 279-282; direct
fetch: lines 306-308), so the body always returns normally and the audio
handlers are unreachable: in the disabled-captions world `wC3`, whose
audio pipeline would transcribe `"hello world this is a test"`, the
resolver returns the failure sentinel instead of the audio transcript
that the handler body (third conjunct) would have produced.  Empty
fetched text likewise returns the sentinel (lines 321-328) without any
audio fallback. -/
theorem claim_C3 :
    (∀ w lc, ∃ r, tryBody w lc = Except.ok r ∧ extractTranscript w lc = r)
    ∧ extractTranscript wC3 (pys "auto") = ([], false, [])
    ∧ audioFallback wC3 = (pys "hello world this is a test", true, pys "en") := by
  refine ⟨?_, by decide, by decide⟩
  intro w lc
  rcases tryBody_shape w lc with h | ⟨txt, g, lg, h, _, _⟩
  · exact ⟨sentinel, h, extract_eq_of_tryBody w lc _ h⟩
  · exact ⟨(txt, g, lg), h, extract_eq_of_tryBody w lc _ h⟩

/-!  Lemmas about `addNewIf` for the specific-language priority list. -/

theorem contains_true_iff {x : List Char} {l : List (List Char)} :
    l.contains x = true ↔ x ∈ l := List.elem_iff

theorem addNewIf_ext (cond : List Char → Bool) (xs : List (List Char))
    (acc : List (List Char)) : ∃ ext, addNewIf cond xs acc = acc ++ ext := by
  induction xs generalizing acc with
  | nil => exact ⟨[], by simp [addNewIf]⟩
  | cons x rest ih =>
    show ∃ ext, addNewIf cond rest
        (if cond x && !acc.contains x then acc ++ [x] else acc) = acc ++ ext
    by_cases hx : (cond x && !acc.contains x) = true
    · rw [if_pos hx]
      obtain ⟨e, he⟩ := ih (acc ++ [x])
      exact ⟨x :: e, by rw [he]; simp⟩
    · rw [if_neg hx]
      exact ih acc

theorem addNewIf_mem_mono (cond : List Char → Bool) (xs : List (List Char))
    (acc : List (List Char)) {y : List Char} (hy : y ∈ acc) :
    y ∈ addNewIf cond xs acc := by
  obtain ⟨e, he⟩ := addNewIf_ext cond xs acc
  rw [he]
  exact List.mem_append_left _ hy

theorem addNewIf_mem_of (cond : List Char → Bool) (xs : List (List Char))
    (acc : List (List Char)) {x : List Char} (hx : x ∈ xs)
    (hc : cond x = true) : x ∈ addNewIf cond xs acc := by
  induction xs generalizing acc with
  | nil => cases hx
  | cons a rest ih =>
    show x ∈ addNewIf cond rest
        (if cond a && !acc.contains a then acc ++ [a] else acc)
    rcases List.mem_cons.mp hx with rfl | hx2
    · by_cases hmem : acc.contains x = true
      · refine addNewIf_mem_mono _ _ _ ?_
        by_cases hcond : (cond x && !acc.contains x) = true
        · rw [if_pos hcond]
          exact List.mem_append_left _ (contains_true_iff.mp hmem)
        · rw [if_neg hcond]
          exact contains_true_iff.mp hmem
      · have hfalse : acc.contains x = false := by
          revert hmem
          cases acc.contains x <;> simp
        have hcond : (cond x && !acc.contains x) = true := by
          rw [hc, hfalse]
          rfl
        refine addNewIf_mem_mono _ _ _ ?_
        rw [if_pos hcond]
        exact List.mem_append_right _ (by simp)
    · exact ih _ hx2

theorem addNewIf_ne_nil (cond : List Char → Bool) (xs : List (List Char))
    (acc : List (List Char)) (h : acc ≠ []) : addNewIf cond xs acc ≠ [] := by
  obtain ⟨e, he⟩ := addNewIf_ext cond xs acc
  rw [he]
  intro hx
  exact h (List.append_eq_nil.mp hx).1

theorem addNewIf_head (cond : List Char → Bool) (xs : List (List Char))
    (acc : List (List Char)) (h : acc ≠ []) :
    (addNewIf cond xs acc).head? = acc.head? := by
  obtain ⟨e, he⟩ := addNewIf_ext cond xs acc
  rw [he, List.head?_append]
  cases acc with
  | nil => exact absurd rfl h
  | cons a as => rfl

theorem addNewIf_ext_strong (cond : List Char → Bool) (xs : List (List Char))
    (acc : List (List Char)) :
    ∃ ext, addNewIf cond xs acc = acc ++ ext
      ∧ ∀ x ∈ ext, x ∈ xs ∧ cond x = true := by
  induction xs generalizing acc with
  | nil => exact ⟨[], by simp [addNewIf], by simp⟩
  | cons a rest ih =>
    show ∃ ext, addNewIf cond rest
        (if cond a && !acc.contains a then acc ++ [a] else acc) = acc ++ ext
      ∧ ∀ x ∈ ext, x ∈ a :: rest ∧ cond x = true
    by_cases ha : (cond a && !acc.contains a) = true
    · rw [if_pos ha]
      obtain ⟨e, he, hmem⟩ := ih (acc ++ [a])
      refine ⟨a :: e, by rw [he]; simp, ?_⟩
      intro x hx
      rcases List.mem_cons.mp hx with rfl | hx2
      · exact ⟨by simp, by
          have hx2 := ha
          rw [Bool.and_eq_true] at hx2
          exact hx2.1⟩
      · obtain ⟨h1, h2⟩ := hmem x hx2
        exact ⟨by simp [h1], h2⟩
    · rw [if_neg ha]
      obtain ⟨e, he, hmem⟩ := ih acc
      refine ⟨e, he, ?_⟩
      intro x hx
      obtain ⟨h1, h2⟩ := hmem x hx
      exact ⟨by simp [h1], h2⟩

theorem manualLangs_subset_avail (tracks : List Track) :
    ∀ l ∈ manualLangs tracks, l ∈ tracks.map Track.lang := by
  intro l hl
  obtain ⟨t, ht, rfl⟩ := List.mem_map.mp hl
  exact List.mem_map.mpr ⟨t, List.mem_of_mem_filter ht, rfl⟩

theorem autoLangs_subset_avail (tracks : List Track) :
    ∀ l ∈ autoLangs tracks, l ∈ tracks.map Track.lang := by
  intro l hl
  obtain ⟨t, ht, rfl⟩ := List.mem_map.mp hl
  exact List.mem_map.mpr ⟨t, List.mem_of_mem_filter ht, rfl⟩

/-- C4 — confirmed.  For a specific preferred language the priority list
decomposes, in order, into the exact-match segment (the requested code
exactly when it is listed, hence the head of the list when listed), then
a segment holding only listed variants from `_get_language_variants` —
and every listed variant already appears in these first two segments —
then a segment holding only listed languages sharing the requested base
ISO code — and every listed same-base caption language already appears in
the first three segments — then the remaining fallback languages.  On the
concrete scenario (`preferred_language="am"`, listing containing only
`"am-ET"`), the priority list is exactly `["am-ET"]` and the resolver
uses the `am-ET` track. -/
theorem claim_C4 :
    (∀ tracks lc, lc ≠ pys "auto" →
       ∃ variantPart basePart restPart,
         prioSpecific tracks lc
           = (if (tracks.map Track.lang).contains lc then [lc] else [])
             ++ variantPart ++ basePart ++ restPart
         ∧ ((tracks.map Track.lang).contains lc = true →
              (prioSpecific tracks lc).head? = some lc)
         ∧ (∀ v ∈ variantPart,
              v ∈ languageVariants lc ∧ v ∈ tracks.map Track.lang)
         ∧ (∀ v ∈ languageVariants lc, v ∈ tracks.map Track.lang →
              v ∈ (if (tracks.map Track.lang).contains lc then [lc] else [])
                ++ variantPart)
         ∧ (∀ l ∈ basePart, baseOf l = baseOf lc ∧ l ∈ tracks.map Track.lang)
         ∧ (∀ l ∈ manualLangs tracks ++ autoLangs tracks, baseOf l = baseOf lc →
              l ∈ (if (tracks.map Track.lang).contains lc then [lc] else [])
                ++ variantPart ++ basePart))
    ∧ prioSpecific wC4tracks (pys "am") = [pys "am-ET"]
    ∧ extractTranscript wC4 (pys "am") = (pys "selam lealem", false, pys "am-ET") := by
  refine ⟨?_, by decide, by decide⟩
  intro tracks lc _
  obtain ⟨vB, hB, hBprop⟩ := addNewIf_ext_strong
    (fun v => (tracks.map Track.lang).contains v) (languageVariants lc)
    (if (tracks.map Track.lang).contains lc then [lc] else [])
  obtain ⟨c1, h2, h2prop⟩ := addNewIf_ext_strong
    (fun l => baseOf l == baseOf lc) (manualLangs tracks)
    ((if (tracks.map Track.lang).contains lc then [lc] else []) ++ vB)
  obtain ⟨c2, h3, h3prop⟩ := addNewIf_ext_strong
    (fun l => baseOf l == baseOf lc) (autoLangs tracks)
    (((if (tracks.map Track.lang).contains lc then [lc] else []) ++ vB) ++ c1)
  obtain ⟨d1, h4, hd1⟩ := addNewIf_ext_strong
    (fun _ => true) (manualLangs tracks)
    ((((if (tracks.map Track.lang).contains lc then [lc] else []) ++ vB) ++ c1) ++ c2)
  obtain ⟨d2, h5, hd2⟩ := addNewIf_ext_strong
    (fun _ => true) (autoLangs tracks)
    (((((if (tracks.map Track.lang).contains lc then [lc] else []) ++ vB) ++ c1)
      ++ c2) ++ d1)
  have hdecomp : prioSpecific tracks lc
      = (((((if (tracks.map Track.lang).contains lc then [lc] else [])
            ++ vB) ++ c1) ++ c2) ++ d1) ++ d2 := by
    unfold prioSpecific
    rw [hB, h2, h3, h4, h5]
  refine ⟨vB, c1 ++ c2, d1 ++ d2, ?_, ?_, ?_, ?_, ?_, ?_⟩
  · rw [hdecomp]
    simp [List.append_assoc]
  · intro hav
    rw [hdecomp, if_pos hav]
    rfl
  · intro v hv
    obtain ⟨h1, h2x⟩ := hBprop v hv
    exact ⟨h1, contains_true_iff.mp h2x⟩
  · intro v hv hvav
    have hmem := addNewIf_mem_of
      (fun v => (tracks.map Track.lang).contains v) (languageVariants lc)
      (if (tracks.map Track.lang).contains lc then [lc] else []) hv
      (contains_true_iff.mpr hvav)
    rw [hB] at hmem
    exact hmem
  · intro l hl
    rcases List.mem_append.mp hl with h | h
    · obtain ⟨hm, hbeq⟩ := h2prop l h
      exact ⟨eq_of_beq hbeq, manualLangs_subset_avail tracks l hm⟩
    · obtain ⟨hm, hbeq⟩ := h3prop l h
      exact ⟨eq_of_beq hbeq, autoLangs_subset_avail tracks l hm⟩
  · intro l hl hb
    rcases List.mem_append.mp hl with hm | ha
    · have hmem := addNewIf_mem_of (fun l => baseOf l == baseOf lc)
        (manualLangs tracks)
        ((if (tracks.map Track.lang).contains lc then [lc] else []) ++ vB) hm
        (by simp [hb])
      rw [h2] at hmem
      simp only [List.mem_append] at hmem ⊢
      tauto
    · have hmem := addNewIf_mem_of (fun l => baseOf l == baseOf lc)
        (autoLangs tracks)
        (((if (tracks.map Track.lang).contains lc then [lc] else []) ++ vB) ++ c1) ha
        (by simp [hb])
      rw [h3] at hmem
      simp only [List.mem_append] at hmem ⊢
      tauto

/-- C4 — witness: the ordered decomposition applied to a listing that
contains the requested code `am` itself, giving `am` at the head of the
priority list. -/
theorem claim_C4_witness :
    (prioSpecific wC4wTracks (pys "am")).head? = some (pys "am") := by
  obtain ⟨vP, bP, rP, hdec, hhead, hrest⟩ :=
    claim_C4.1 wC4wTracks (pys "am") (by decide)
  exact hhead (by decide)

/-!  Lemmas about occurrence counting of the elision marker. -/

/-- Interior of the elision marker between its two newlines. -/
def elisionMid : List Char :=
  pys "...[content in the middle omitted for length]..."

theorem elisionMarker_eq : elisionMarker = '\n' :: (elisionMid ++ ['\n']) := by
  decide

theorem elisionMid_no_newline : ∀ c ∈ elisionMid, c ≠ '\n' := by decide

theorem newline_mem_elisionMarker : '\n' ∈ elisionMarker := by decide

theorem isPrefixOf_to_IsPrefix {p w : List Char} (h : p.isPrefixOf w = true) :
    p <+: w := List.isPrefixOf_iff_prefix.mp h

theorem isPrefixOf_of_IsPrefix {p w : List Char} (h : p <+: w) :
    p.isPrefixOf w = true := List.isPrefixOf_iff_prefix.mpr h

theorem countOcc_zero_of_no_newline {w : List Char}
    (hw : ∀ x ∈ w, x ≠ '\n') : countOcc elisionMarker w = 0 := by
  induction w with
  | nil => rfl
  | cons a rest ih =>
    have h1 : elisionMarker.isPrefixOf (a :: rest) = false := by
      by_contra hx
      rw [Bool.not_eq_false] at hx
      have hsub := (isPrefixOf_to_IsPrefix hx).subset newline_mem_elisionMarker
      exact hw '\n' hsub rfl
    simp only [countOcc, h1]
    simp only [Bool.false_eq_true, if_false, Nat.zero_add]
    exact ih (fun x hx => hw x (List.mem_cons_of_mem a hx))

theorem countOcc_cons_of_ne {a : Char} {w : List Char} (ha : a ≠ '\n') :
    countOcc elisionMarker (a :: w) = countOcc elisionMarker w := by
  have h1 : elisionMarker.isPrefixOf (a :: w) = false := by
    by_contra hx
    rw [Bool.not_eq_false] at hx
    obtain ⟨t, ht⟩ := isPrefixOf_to_IsPrefix hx
    rw [elisionMarker_eq, List.cons_append] at ht
    injection ht with h2 _
    exact ha h2.symm
  simp only [countOcc, h1]
  simp only [Bool.false_eq_true, if_false, Nat.zero_add]

theorem countOcc_mid_block : ∀ m b : List Char, (∀ x ∈ m, x ≠ '\n') →
    (∀ x ∈ b, x ≠ '\n') → countOcc elisionMarker (m ++ '\n' :: b) = 0 := by
  intro m
  induction m with
  | nil =>
    intro b _ hb
    simp only [List.nil_append]
    have h1 : elisionMarker.isPrefixOf ('\n' :: b) = false := by
      by_contra hx
      rw [Bool.not_eq_false] at hx
      have hp := isPrefixOf_to_IsPrefix hx
      rw [elisionMarker_eq] at hp
      have h2 : (elisionMid ++ ['\n']) <+: b := (List.cons_prefix_cons.mp hp).2
      exact hb '\n' (h2.subset (by simp)) rfl
    simp only [countOcc, h1]
    simp only [Bool.false_eq_true, if_false, Nat.zero_add]
    exact countOcc_zero_of_no_newline hb
  | cons a ms ih =>
    intro b hm hb
    rw [List.cons_append, countOcc_cons_of_ne (hm a (by simp))]
    exact ih b (fun x hx => hm x (by simp [hx])) hb

theorem countOcc_sandwich {a b : List Char}
    (ha : ∀ x ∈ a, x ≠ '\n') (hb : ∀ x ∈ b, x ≠ '\n') :
    countOcc elisionMarker (a ++ (elisionMarker ++ b)) = 1 := by
  induction a with
  | cons c cs ih =>
    rw [List.cons_append, countOcc_cons_of_ne (ha c (by simp))]
    exact ih (fun x hx => ha x (by simp [hx]))
  | nil =>
    simp only [List.nil_append]
    have hexp : elisionMarker ++ b = '\n' :: ((elisionMid ++ ['\n']) ++ b) := by
      rw [elisionMarker_eq]
      rfl
    rw [hexp]
    have hpre : elisionMarker.isPrefixOf ('\n' :: ((elisionMid ++ ['\n']) ++ b)) = true := by
      rw [← hexp]
      exact isPrefixOf_of_IsPrefix ⟨b, rfl⟩
    have hstep : countOcc elisionMarker ('\n' :: ((elisionMid ++ ['\n']) ++ b))
        = (if elisionMarker.isPrefixOf ('\n' :: ((elisionMid ++ ['\n']) ++ b)) then 1 else 0)
          + countOcc elisionMarker ((elisionMid ++ ['\n']) ++ b) := rfl
    rw [hstep, hpre]
    have hassoc : (elisionMid ++ ['\n']) ++ b = elisionMid ++ ('\n' :: b) := by simp
    rw [if_pos rfl, hassoc, countOcc_mid_block elisionMid b elisionMid_no_newline hb]

/-- C5 — counterexample.  The claim states that every text longer than
`max_input_chars` is placed into the backend-bound prompt as an
80%-prefix and 20%-suffix joined by the elision marker occurring exactly
once.  In the Ollama summarizer with the VPS model selected
(`USE_VPS_MODEL`, ollama_utils.py line 232), the over-long text is passed
through untrimmed and the marker does not occur at all. -/
theorem claim_C5_counterexample :
    ollamaText true (pys "abcdefghijkl") 10 = pys "abcdefghijkl"
    ∧ countOcc elisionMarker (ollamaText true (pys "abcdefghijkl") 10) = 0
    ∧ (pys "abcdefghijkl").length > 10 := by decide

/-- C5 — amended claim.  For text over the budget, the requests-based
Mistral summarizer (and the Mistral-client variant, whose trim is
identical) always produces `take (maxLen*8/10) text ++ marker ++
drop (length - maxLen*2/10) text`, in which the marker occurs exactly
once (for newline-free input; the marker is newline-delimited); the
Ollama summarizer does the same when the VPS model is not selected, and
passes the text through untrimmed — never a silent cut — when it is. -/
theorem claim_C5 :
    ∀ text maxLen, text.length > maxLen → 5 ≤ maxLen → (∀ c ∈ text, c ≠ '\n') →
      mistralRequestsText text maxLen
        = text.take (maxLen * 8 / 10) ++ elisionMarker
            ++ text.drop (text.length - maxLen * 2 / 10)
      ∧ countOcc elisionMarker (mistralRequestsText text maxLen) = 1
      ∧ ollamaText false text maxLen = mistralRequestsText text maxLen
      ∧ ollamaText true text maxLen = text := by
  intro text maxLen hlen hm hnl
  have h20 : ¬ maxLen * 2 / 10 = 0 := by omega
  have heq : mistralRequestsText text maxLen
      = text.take (maxLen * 8 / 10) ++ elisionMarker
          ++ text.drop (text.length - maxLen * 2 / 10) := by
    unfold mistralRequestsText pyTrim8020
    rw [if_pos hlen, if_neg h20]
  refine ⟨heq, ?_, ?_, ?_⟩
  · rw [heq, List.append_assoc]
    exact countOcc_sandwich
      (fun x hx => hnl x (List.take_subset _ _ hx))
      (fun x hx => hnl x (List.drop_subset _ _ hx))
  · unfold ollamaText mistralRequestsText
    simp [hlen]
  · unfold ollamaText
    rfl

/-- C5 — witness: the amended claim applied to a 12-character text with a
10-character budget. -/
theorem claim_C5_witness :
    countOcc elisionMarker (mistralRequestsText (pys "abcdefghijkl") 10) = 1 :=
  (claim_C5 (pys "abcdefghijkl") 10 (by decide) (by decide) (by decide)).2.1

/-!  Router lemma and the C6 claim. -/

theorem getAISummary_spec (env : AIEnv) (text : List Char)
    (h : pyStrip text ≠ []) :
    getAISummary env text = (attempts env).findSome? callOk := by
  unfold getAISummary attempts
  rw [if_neg h]
  cases hr : env.railway <;> cases hu : env.useRemote <;>
    cases ho : env.ollamaAvailable <;> cases hk : env.hasKey <;>
      simp only [hr, hu, ho, hk, Bool.true_and, Bool.false_and, Bool.and_true,
        Bool.and_false, Bool.not_true, Bool.not_false, Bool.false_eq_true,
        if_false, if_true, List.nil_append, List.append_nil,
        List.findSome?_cons, List.findSome?_nil] <;>
      (cases hc1 : callOk env.remoteOllama <;> cases hc2 : callOk env.localOllama <;>
        cases hc3 : callOk env.mistralRequests <;> cases hc4 : callOk env.mistralClient <;>
        simp_all [List.findSome?_cons, List.findSome?_nil])

/-- C6 — counterexample.  The claim states the router returns null if and
only if every configured backend has been tried and failed.  For empty
input the router returns null at once (lines 69-71) without trying any
backend: in `envC6ce` the single configured backend would succeed, yet
`get_ai_summary("")` is `None`. -/
theorem claim_C6_counterexample :
    getAISummary envC6ce [] = none
    ∧ ¬(∀ c ∈ attempts envC6ce, callOk c = none) := by
  constructor
  · decide
  · decide

/-- C6 — amended claim.  For non-empty, non-whitespace-only input the
router never propagates an exception (each backend outcome — raise,
`None`, empty string — is handled by moving on): it returns exactly the
first truthy backend result in its environment-determined attempt order,
and returns null if and only if every attempted backend failed.  With
backend A always failing and a later backend B always succeeding, the
result is B's (second conjunct).  Empty input returns null without trying
any backend. -/
theorem claim_C6 :
    (∀ env text, pyStrip text ≠ [] →
       getAISummary env text = (attempts env).findSome? callOk
       ∧ (getAISummary env text = none ↔ ∀ c ∈ attempts env, callOk c = none))
    ∧ getAISummary envAB (pys "hello") = some (pys "summary from B") := by
  refine ⟨?_, by decide⟩
  intro env text h
  have hs := getAISummary_spec env text h
  refine ⟨hs, ?_⟩
  rw [hs]
  exact List.findSome?_eq_none_iff

/-- C6 — witness: the amended claim applied to the fallback environment
`envAB`. -/
theorem claim_C6_witness :
    getAISummary envAB (pys "hi") = (attempts envAB).findSome? callOk :=
  (claim_C6.1 envAB (pys "hi") (by decide)).1

/-- C7 — counterexample.  The claim states that an exhausted resolution
returns a failure carrying a human-readable reason from the last concrete
error, and that unexpected errors surface as hard failures.  The code
returns the bare tuple `("", False, "")` in every failure case: a
soft-failure world (empty listing, `NoTranscriptFound` direct fetches)
and a hard-failure world (unexpected exceptions everywhere) produce the
identical reason-less sentinel. -/
theorem claim_C7_counterexample :
    extractTranscript wC7soft (pys "auto") = ([], false, [])
    ∧ extractTranscript wC7hard (pys "auto") = ([], false, []) := by decide

/-- C7 — amended claim.  Whenever the listing and both direct fetches
raise — whatever the exception class, soft (`disabled` / `notFound`),
transient or unexpected — `extract_transcript` returns the empty sentinel
`("", False, "")`: no reason string is carried (reasons are only logged),
and hard errors are caught by the same inner catch-all handlers, so they
are indistinguishable from soft failures in the returned value. -/
theorem claim_C7 :
    ∀ w lc e ea eb, w.listing = .raises e → w.directAuto = .raises ea →
      w.directLang = .raises eb → extractTranscript w lc = ([], false, []) := by
  intro w lc e ea eb hl ha hd
  have hb : tryBody w lc = .ok sentinel := by
    unfold tryBody
    rw [hl, ha, hd]
    by_cases hc : (lc == pys "auto") = true <;>
      simp [hc, optTruthy, finalizeData, sentinel]
  rw [extract_eq_of_tryBody w lc _ hb]
  rfl

/-- C7 — witness: the amended claim applied to a world where every
upstream call raises a transient error. -/
theorem claim_C7_witness :
    extractTranscript wC7w (pys "auto") = ([], false, []) :=
  claim_C7 wC7w (pys "auto") .transient .transient .transient rfl rfl rfl

/-- C8 — counterexample.  The claim states that a duration-exceeded
rejection is reported by the resolver as a soft failure whose reason
mentions the video being too long.  In `wC8` (5000-second video,
3600-second cap, captions disabled) the resolver returns the bare
sentinel `("", False, "")`: no component of the result mentions
"too long" — the reason is dropped (and the audio handler is unreachable
anyway). -/
theorem claim_C8_counterexample :
    extractTranscript wC8 (pys "auto") = ([], false, [])
    ∧ ¬ (pys "too long") <:+: ([] : List Char) := by
  constructor
  · decide
  · decide

/-- C8 — amended claim.  `download_audio` raises an
`AudioTranscriptionError` whose message contains "too long" whenever the
source duration exceeds the cap; but `extract_transcript` catches
`AudioTranscriptionError` (lines 396-398) and returns the empty sentinel,
carrying no reason. -/
theorem claim_C8 :
    ∀ duration cap rest, duration > cap →
      downloadAudio duration cap rest = .error (tooLongMsg duration cap)
      ∧ (pys "too long") <:+: tooLongMsg duration cap
      ∧ (∀ w msg, w.audioResult = .error msg → audioFallback w = ([], false, [])) := by
  intro d cap rest hd
  refine ⟨by unfold downloadAudio; rw [if_pos hd], ?_, ?_⟩
  · obtain ⟨s, t, hst⟩ :=
      (by decide : (pys "too long") <:+: pys "Failed to download audio: Video too long (")
    refine ⟨s, t ++ Nat.toDigits 10 d ++ pys "s > " ++ Nat.toDigits 10 cap
      ++ pys "s). Audio transcription is limited to shorter videos.", ?_⟩
    unfold tooLongMsg
    rw [← hst]
    simp [List.append_assoc]
  · intro w msg hw
    unfold audioFallback
    by_cases h1 : w.audioModule = true <;> by_cases h2 : w.audioConfigured = true <;>
      simp [h1, h2, hw, sentinel]

/-- C8 — witness: the amended claim at the 5000-second / 3600-second
scenario. -/
theorem claim_C8_witness :
    downloadAudio 5000 3600 (.ok (pys "/tmp/a.wav"))
      = .error (tooLongMsg 5000 3600) :=
  (claim_C8 5000 3600 (.ok (pys "/tmp/a.wav")) (by decide)).1

/-- C9 — confirmed.  With cleanup enabled, `transcribe_youtube_audio`
leaves the filesystem exactly as it found it on every exit path: the
`finally:` block deletes the downloaded artifact whether transcription
succeeds, returns empty text (which raises), or raises; and when the
download itself fails no artifact is created. -/
theorem claim_C9 :
    ∀ (path : List Char) (tOut : Except Unit (List Char × List Char))
      (fs : List (List Char)), path ∉ fs →
      (transcribeYoutubeAudio ⟨some path, tOut⟩ true fs).2 = fs
      ∧ (transcribeYoutubeAudio ⟨none, tOut⟩ true fs).2 = fs := by
  intro path tOut fs hp
  refine ⟨?_, rfl⟩
  have hcont : fs.contains path = false := by
    cases hx : fs.contains path
    · rfl
    · exact absurd (contains_true_iff.mp hx) hp
  have hc2 : (fs ++ [path]).contains path = true :=
    contains_true_iff.mpr (List.mem_append_right _ (by simp))
  have herase : (fs ++ [path]).erase path = fs := by
    rw [List.erase_append_right _ hp, List.erase_cons_head, List.append_nil]
  unfold transcribeYoutubeAudio
  simp only [hcont, Bool.false_eq_true, if_false, Bool.true_and, hc2, if_true, herase]
  rcases tOut with e | ⟨text, lang⟩
  · rfl
  · by_cases hstrip : pyStrip text = [] <;> simp [hstrip]

/-- C9 — witness: cleanup applied to a fresh download path over a
filesystem holding one unrelated file. -/
theorem claim_C9_witness :
    (transcribeYoutubeAudio
        ⟨some (pys "/tmp/audio.wav"), .ok (pys "hello world", pys "en")⟩
        true [pys "/tmp/other.wav"]).2 = [pys "/tmp/other.wav"] :=
  (claim_C9 (pys "/tmp/audio.wav") (.ok (pys "hello world", pys "en"))
    [pys "/tmp/other.wav"] (by decide)).1

end YTP

